import Mathlib

/-!
# SpacesVM: verification of the state-transition engine against its source

Shallow embedding of the repository's TransferTx execution (chain/transfer_tx),
genesis allocation (chain/genesis.go), and the client-side claim/mining loop
(cmd claim package), with theorems settling the frozen claims about them.

Machine integers of the source (uint64 balances and unit amounts) are embedded
as Nat: the balance-mutation primitive fails closed before any subtraction can
underflow, and the spec (section 3) treats balances as unsigned unit counts with
no overflow behaviour prescribed.
-/

namespace SpacesVM

/-- Account addresses (20-byte common.Address in the source) embedded as Nat;
byte-wise equality of addresses corresponds to equality of the embedded values. -/
abbrev Address := Nat

/-- The all-zero address, compared against TransferTx.To in Execute. -/
def zeroAddress : Address := 0

/-- Ledger state: the balance column of the key-value store, address to balance. -/
def Db := Address → Nat

/-- Point update of the ledger, the effect of one balance write. -/
def Db.set (db : Db) (addr : Address) (bal : Nat) : Db :=
  fun a => if a = addr then bal else db a

/-- Typed failures of the engine, one constructor per error the embedded code
can return. -/
inductive ChainError where
  | NonActionable
  | InsufficientBalance
  | InvalidMagic
  | HashMismatch (expected actual : String)
  | ParseFailure
  deriving DecidableEq, Repr

/-- Modelled from the spec: ModifyBalance (balance primitive of the chain
package, not under src/). Per the spec, balances are never negative and debits
fail closed if insufficient (sections 3 and 8); credits add the amount to the
stored balance, and the spec specifies no credit-side failure. Returns the new
balance and the updated ledger, exactly as the Go function returns
(uint64, error) while writing through the database handle. -/
def ModifyBalance (db : Db) (addr : Address) (add : Bool) (units : Nat) :
    Except ChainError (Nat × Db) :=
  let b := db addr
  if add then
    let n := b + units
    .ok (n, db.set addr n)
  else if b < units then
    .error .InsufficientBalance
  else
    let n := b - units
    .ok (n, db.set addr n)

/-- TransferTx (chain package): recipient and unit amount on top of the shared
base transaction. The base transaction fields are irrelevant to Execute and are
modelled separately for the copy/mining claims. -/
structure TransferTx where
  toAddr : Address
  units : Nat
  deriving DecidableEq, Repr

/-- TransferTx.Execute, from the source: rejects the zero address, then
self-transfer, then a zero amount, each as NonActionable; otherwise debits the
sender and credits the recipient through ModifyBalance, propagating the first
error. The Go function mutates the context's database in place; here the ledger
is threaded explicitly and returned together with the error slot, so the state
observable at each exit point is the first component. -/
def TransferTx.Execute (t : TransferTx) (sender : Address) (db : Db) :
    Db × Option ChainError :=
  if t.toAddr = zeroAddress then (db, some .NonActionable)
  else if t.toAddr = sender then (db, some .NonActionable)
  else if t.units = 0 then (db, some .NonActionable)
  else
    match ModifyBalance db sender false t.units with
    | .error e => (db, some e)
    | .ok (_, db1) =>
      match ModifyBalance db1 t.toAddr true t.units with
      | .error e => (db1, some e)
      | .ok (_, db2) => (db2, none)

theorem ModifyBalance_debit_ok (db : Db) (addr : Address) (units : Nat)
    (h : ¬ db addr < units) :
    ModifyBalance db addr false units = .ok (db addr - units, db.set addr (db addr - units)) := by
  simp [ModifyBalance, h]

theorem ModifyBalance_debit_fail (db : Db) (addr : Address) (units : Nat)
    (h : db addr < units) :
    ModifyBalance db addr false units = .error .InsufficientBalance := by
  simp [ModifyBalance, h]

theorem ModifyBalance_credit (db : Db) (addr : Address) (units : Nat) :
    ModifyBalance db addr true units = .ok (db addr + units, db.set addr (db addr + units)) := by
  simp [ModifyBalance]

theorem Db.set_same (db : Db) (addr : Address) (bal : Nat) :
    (db.set addr bal) addr = bal := by
  simp [Db.set]

theorem Db.set_other (db : Db) (addr : Address) (bal : Nat) (a : Address)
    (h : a ≠ addr) : (db.set addr bal) a = db a := by
  simp [Db.set, h]

/-- C1: with a non-zero recipient distinct from the sender and a non-zero
amount, Execute succeeds exactly when the sender's balance covers the amount,
debiting the sender and crediting the recipient and touching nothing else;
with insufficient balance it fails and leaves every balance unchanged. -/
theorem transfer_execute_spec (t : TransferTx) (sender : Address) (db : Db)
    (hz : t.toAddr ≠ zeroAddress) (hs : t.toAddr ≠ sender) (hu : t.units ≠ 0) :
    (t.units ≤ db sender →
      (t.Execute sender db).2 = none ∧
      (t.Execute sender db).1 sender = db sender - t.units ∧
      (t.Execute sender db).1 t.toAddr = db t.toAddr + t.units ∧
      ∀ a, a ≠ sender → a ≠ t.toAddr → (t.Execute sender db).1 a = db a) ∧
    (db sender < t.units →
      (t.Execute sender db).2 = some .InsufficientBalance ∧
      ∀ a, (t.Execute sender db).1 a = db a) := by
  constructor
  · intro hle
    have hnd : ¬ db sender < t.units := not_lt.mpr hle
    simp only [TransferTx.Execute, if_neg hz, if_neg hs, if_neg hu,
      ModifyBalance_debit_ok db sender t.units hnd,
      ModifyBalance_credit]
    refine ⟨trivial, ?_, ?_, ?_⟩
    · rw [Db.set_other _ _ _ _ (Ne.symm hs), Db.set_same]
    · rw [Db.set_same, Db.set_other _ _ _ _ hs]
    · intro a ha1 ha2
      rw [Db.set_other _ _ _ _ ha2, Db.set_other _ _ _ _ ha1]
  · intro hlt
    simp [TransferTx.Execute, if_neg hz, if_neg hs, if_neg hu,
      ModifyBalance_debit_fail db sender t.units hlt]

/-- Witness for C1: a concrete transfer of 5 units from address 1 (balance 7)
to address 2, exercising both the covered and the uncovered branch shape. -/
theorem transfer_execute_spec_witness :
    ((2 : Address) ≠ zeroAddress ∧ (2 : Address) ≠ 1 ∧ (5 : Nat) ≠ 0) ∧
    ((5 ≤ (fun a => if a = 1 then 7 else 0) 1 →
      ((TransferTx.mk 2 5).Execute 1 (fun a => if a = 1 then 7 else 0)).2 = none ∧
      ((TransferTx.mk 2 5).Execute 1 (fun a => if a = 1 then 7 else 0)).1 1 =
        (fun a => if a = 1 then 7 else 0) 1 - 5 ∧
      ((TransferTx.mk 2 5).Execute 1 (fun a => if a = 1 then 7 else 0)).1 2 =
        (fun a => if a = 1 then 7 else 0) 2 + 5 ∧
      ∀ a, a ≠ 1 → a ≠ 2 →
        ((TransferTx.mk 2 5).Execute 1 (fun a => if a = 1 then 7 else 0)).1 a =
          (fun a => if a = 1 then 7 else 0) a) ∧
    ((fun a => if a = 1 then 7 else 0) 1 < 5 →
      ((TransferTx.mk 2 5).Execute 1 (fun a => if a = 1 then 7 else 0)).2 =
        some .InsufficientBalance ∧
      ∀ a, ((TransferTx.mk 2 5).Execute 1 (fun a => if a = 1 then 7 else 0)).1 a =
        (fun a => if a = 1 then 7 else 0) a)) :=
  ⟨⟨by decide, by decide, by decide⟩,
    transfer_execute_spec (TransferTx.mk 2 5) 1 (fun a => if a = 1 then 7 else 0)
      (by decide) (by decide) (by decide)⟩

/-- C2: a transfer to the sender itself, to the zero address, or of zero units
always fails as NonActionable and changes no balance. -/
theorem transfer_nonactionable (t : TransferTx) (sender : Address) (db : Db)
    (h : t.toAddr = sender ∨ t.toAddr = zeroAddress ∨ t.units = 0) :
    (t.Execute sender db).2 = some .NonActionable ∧
    ∀ a, (t.Execute sender db).1 a = db a := by
  by_cases hz : t.toAddr = zeroAddress
  · simp [TransferTx.Execute, hz]
  · by_cases hs : t.toAddr = sender
    · simp [TransferTx.Execute, hz, hs]
    · have hu : t.units = 0 := by tauto
      simp [TransferTx.Execute, hz, hs, hu]

/-- Witness for C2: a concrete self-transfer from address 3 to address 3. -/
theorem transfer_nonactionable_witness :
    ((3 : Address) = 3 ∨ (3 : Address) = zeroAddress ∨ (4 : Nat) = 0) ∧
    (((TransferTx.mk 3 4).Execute 3 (fun _ => 9)).2 = some .NonActionable ∧
      ∀ a, ((TransferTx.mk 3 4).Execute 3 (fun _ => 9)).1 a = (fun _ => (9 : Nat)) a) :=
  ⟨Or.inl rfl, transfer_nonactionable (TransferTx.mk 3 4) 3 (fun _ => 9) (Or.inl rfl)⟩

/-- C3: every outcome of TransferTx.Execute is atomic: either every balance is
unchanged (all failure exits, which occur before any mutation), or the
execution succeeded and the resulting ledger carries both the debit of the
sender and the matching credit of the recipient; a debit is never observable
without its credit. -/
theorem transfer_atomic (t : TransferTx) (sender : Address) (db : Db) :
    (∀ a, (t.Execute sender db).1 a = db a) ∨
    ((t.Execute sender db).2 = none ∧
      t.toAddr ≠ sender ∧
      (t.Execute sender db).1 sender = db sender - t.units ∧
      (t.Execute sender db).1 t.toAddr = db t.toAddr + t.units ∧
      ∀ a, a ≠ sender → a ≠ t.toAddr → (t.Execute sender db).1 a = db a) := by
  by_cases hz : t.toAddr = zeroAddress
  · left; simp [TransferTx.Execute, hz]
  · by_cases hs : t.toAddr = sender
    · left; simp [TransferTx.Execute, hz, hs]
    · by_cases hu : t.units = 0
      · left; simp [TransferTx.Execute, hz, hs, hu]
      · by_cases hb : db sender < t.units
        · left
          simp [TransferTx.Execute, hz, hs, hu,
            ModifyBalance_debit_fail db sender t.units hb]
        · right
          simp only [TransferTx.Execute, if_neg hz, if_neg hs, if_neg hu,
            ModifyBalance_debit_ok db sender t.units hb, ModifyBalance_credit]
          refine ⟨trivial, hs, ?_, ?_, ?_⟩
          · rw [Db.set_other _ _ _ _ (Ne.symm hs), Db.set_same]
          · rw [Db.set_same, Db.set_other _ _ _ _ hs]
          · intro a ha1 ha2
            rw [Db.set_other _ _ _ _ ha2, Db.set_other _ _ _ _ ha1]

/-- Airdrop entry of chain/genesis.go: one hex-formatted address. -/
structure Airdrop where
  address : Address
  deriving DecidableEq, Repr

/-- CustomAllocation entry of chain/genesis.go: an address and its balance. -/
structure CustomAllocation where
  address : Address
  balance : Nat
  deriving DecidableEq, Repr

/-- Genesis parameter set of chain/genesis.go, field for field. The two int64
fee-mechanism fields are embedded as Int, the uint64 fields as Nat. -/
structure Genesis where
  magic : Nat
  baseTxUnits : Nat
  valueUnitSize : Nat
  maxValueSize : Nat
  claimFeeMultiplier : Nat
  claimTier3Multiplier : Nat
  claimTier2Size : Nat
  claimTier2Multiplier : Nat
  claimTier1Size : Nat
  claimTier1Multiplier : Nat
  pfxRenewalDiscount : Nat
  claimReward : Nat
  lifelineUnitReward : Nat
  lotteryRewardMultipler : Nat
  lotteryRewardDivisor : Nat
  lookbackWindow : Int
  blockTarget : Int
  targetUnits : Nat
  minPrice : Nat
  minBlockCost : Nat
  customAllocation : List CustomAllocation
  airdropHash : String
  airdropUnits : Nat
  deriving DecidableEq, Repr

/-- DefaultGenesis of chain/genesis.go; fields the Go literal leaves unset are
their zero values (magic 0, empty allocations, empty airdrop hash). -/
def DefaultGenesis : Genesis where
  magic := 0
  baseTxUnits := 10
  valueUnitSize := 256
  maxValueSize := 128 * 1024
  claimFeeMultiplier := 5
  claimTier3Multiplier := 1
  claimTier2Size := 36
  claimTier2Multiplier := 5
  claimTier1Size := 12
  claimTier1Multiplier := 25
  pfxRenewalDiscount := 5
  claimReward := 60 * 60 * 24 * 15
  lifelineUnitReward := 60 * 60 * 6
  lotteryRewardMultipler := 8
  lotteryRewardDivisor := 10
  lookbackWindow := 60
  blockTarget := 1
  targetUnits := 10 * 512 * 60
  minPrice := 1
  minBlockCost := 0
  customAllocation := []
  airdropHash := ""
  airdropUnits := 0

/-- Modelled from the spec: SetBalance (balance write of the chain package, not
under src/) stores the given balance for the address. Genesis.Load hands it a
database.KeyValueWriter, a write-only handle that cannot read the old balance,
so the primitive writes the balance outright; spec section 3: allocations are
"applied in that order so explicit allocations can override the airdrop". The
storage layer's own write failures are out of scope (spec section 1). -/
def SetBalance (db : Db) (addr : Address) (bal : Nat) : Db := db.set addr bal

/-- Genesis.Verify from the source: rejects a zero magic. -/
def Genesis.Verify (g : Genesis) : Option ChainError :=
  if g.magic = 0 then some .InvalidMagic else none

/-- The airdrop loop of Genesis.Load: one SetBalance of the flat airdrop
amount per parsed entry, in list order. -/
def applyAirdrop (g : Genesis) (standardAllocation : List Airdrop) (db : Db) : Db :=
  standardAllocation.foldl (fun d alloc => SetBalance d alloc.address g.airdropUnits) db

/-- One pass of the custom-allocation loop over a given entry list: one
SetBalance of the declared balance per entry, in list order. -/
def applyCustomList (cas : List CustomAllocation) (db : Db) : Db :=
  cas.foldl (fun d alloc => SetBalance d alloc.address alloc.balance) db

/-- The custom-allocation loop of Genesis.Load, over the genesis's list. -/
def applyCustomAllocation (g : Genesis) (db : Db) : Db :=
  applyCustomList g.customAllocation db

/-- Genesis.Load from the source. The Keccak256-and-hex digest of the payload
and the JSON decoding of the airdrop entries are external primitives
(go-ethereum crypto, encoding/json), passed in abstractly; everything else
follows chain/genesis.go line for line: with a declared (non-empty) airdrop
hash, compare the recomputed digest, fail on mismatch, fail on a parse error,
otherwise apply the airdrop entries and then, always, the custom allocation
list. The ledger is returned with the error slot so the state at each exit is
observable. -/
def Genesis.Load (keccakHex : List Nat → String)
    (parseAirdrop : List Nat → Except ChainError (List Airdrop))
    (g : Genesis) (db : Db) (airdropData : List Nat) : Db × Option ChainError :=
  if 0 < g.airdropHash.length then
    let h := keccakHex airdropData
    if g.airdropHash ≠ h then (db, some (.HashMismatch g.airdropHash h))
    else
      match parseAirdrop airdropData with
      | .error e => (db, some e)
      | .ok standardAllocation =>
        (applyCustomAllocation g (applyAirdrop g standardAllocation db), none)
  else (applyCustomAllocation g db, none)

/-- Modelled from the spec: the chain-start load contract of section 4.1,
load(genesis, airdropBytes). The VM-initialization caller that sequences
Genesis.Verify before Genesis.Load is not under src/; per the spec the
contract verifies the magic first ("Verifies genesis.Magic != 0, else fails
with InvalidMagic") and only then applies allocations. Verify and Load
themselves are embedded from src/chain/genesis.go. -/
def loadContract (keccakHex : List Nat → String)
    (parseAirdrop : List Nat → Except ChainError (List Airdrop))
    (g : Genesis) (db : Db) (airdropData : List Nat) : Db × Option ChainError :=
  match g.Verify with
  | some e => (db, some e)
  | none => g.Load keccakHex parseAirdrop db airdropData

theorem applyAirdrop_not_mem (g : Genesis) (sa : List Airdrop) (db : Db)
    (a : Address) (h : a ∉ sa.map (fun ad => ad.address)) :
    applyAirdrop g sa db a = db a := by
  induction sa generalizing db with
  | nil => rfl
  | cons hd tl ih =>
    simp only [List.map_cons, List.mem_cons, not_or] at h
    show applyAirdrop g tl (SetBalance db hd.address g.airdropUnits) a = db a
    rw [ih _ h.2]
    exact Db.set_other _ _ _ _ h.1

theorem applyAirdrop_mem (g : Genesis) (sa : List Airdrop) (db : Db)
    (a : Address) (h : a ∈ sa.map (fun ad => ad.address)) :
    applyAirdrop g sa db a = g.airdropUnits := by
  induction sa generalizing db with
  | nil => simp at h
  | cons hd tl ih =>
    show applyAirdrop g tl (SetBalance db hd.address g.airdropUnits) a = g.airdropUnits
    by_cases htl : a ∈ tl.map (fun ad => ad.address)
    · exact ih _ htl
    · simp only [List.map_cons, List.mem_cons] at h
      have ha : a = hd.address := h.resolve_right htl
      rw [applyAirdrop_not_mem g tl _ a htl, ha]
      exact Db.set_same _ _ _

theorem applyCustomList_not_mem (cas : List CustomAllocation) (db : Db) (a : Address)
    (h : a ∉ cas.map (fun c => c.address)) :
    applyCustomList cas db a = db a := by
  induction cas generalizing db with
  | nil => rfl
  | cons hd tl ih =>
    simp only [List.map_cons, List.mem_cons, not_or] at h
    show applyCustomList tl (SetBalance db hd.address hd.balance) a = db a
    rw [ih _ h.2]
    exact Db.set_other _ _ _ _ h.1

theorem applyCustomList_indep (cas : List CustomAllocation) (a : Address)
    (h : a ∈ cas.map (fun c => c.address)) :
    ∀ db1 db2 : Db, applyCustomList cas db1 a = applyCustomList cas db2 a := by
  induction cas with
  | nil => simp at h
  | cons hd tl ih =>
    intro db1 db2
    show applyCustomList tl (SetBalance db1 hd.address hd.balance) a =
      applyCustomList tl (SetBalance db2 hd.address hd.balance) a
    by_cases htl : a ∈ tl.map (fun c => c.address)
    · exact ih htl _ _
    · have ha : a = hd.address := by
        simp only [List.map_cons, List.mem_cons] at h
        exact h.resolve_right htl
      have h1 : ∀ db : Db,
          applyCustomList tl (SetBalance db hd.address hd.balance) a = hd.balance := by
        intro db
        rw [applyCustomList_not_mem tl _ a htl, ha]
        exact Db.set_same _ _ _
      rw [h1 db1, h1 db2]

theorem applyCustomList_nodup (cas : List CustomAllocation) (db : Db)
    (hnd : (cas.map (fun c => c.address)).Nodup) :
    ∀ ca ∈ cas, applyCustomList cas db ca.address = ca.balance := by
  induction cas generalizing db with
  | nil => intro ca hca; simp at hca
  | cons hd tl ih =>
    intro ca hca
    simp only [List.map_cons, List.nodup_cons] at hnd
    rcases List.mem_cons.mp hca with hceq | hctl
    · subst hceq
      show applyCustomList tl (SetBalance db ca.address ca.balance) ca.address = ca.balance
      rw [applyCustomList_not_mem tl _ _ hnd.1]
      exact Db.set_same _ _ _
    · exact ih _ hnd.2 ca hctl

/-- C4: with a declared (non-empty) airdrop hash, Load fails on a digest
mismatch leaving every balance unchanged, and on a digest match with a parsed
entry list it succeeds and every listed address not overridden by the custom
allocation list ends with the flat airdrop amount. -/
theorem genesis_load_airdrop_spec (keccakHex : List Nat → String)
    (parseAirdrop : List Nat → Except ChainError (List Airdrop))
    (g : Genesis) (db : Db) (data : List Nat)
    (hdecl : 0 < g.airdropHash.length) :
    (keccakHex data ≠ g.airdropHash →
      (g.Load keccakHex parseAirdrop db data).2 =
        some (.HashMismatch g.airdropHash (keccakHex data)) ∧
      ∀ a, (g.Load keccakHex parseAirdrop db data).1 a = db a) ∧
    (∀ sa, keccakHex data = g.airdropHash → parseAirdrop data = .ok sa →
      (g.Load keccakHex parseAirdrop db data).2 = none ∧
      ∀ ad ∈ sa, ad.address ∉ g.customAllocation.map (fun c => c.address) →
        (g.Load keccakHex parseAirdrop db data).1 ad.address = g.airdropUnits) := by
  constructor
  · intro hne
    simp [Genesis.Load, hdecl, Ne.symm hne]
  · intro sa hh hp
    have hcond : ¬ (g.airdropHash ≠ keccakHex data) := fun hne => hne hh.symm
    simp only [Genesis.Load, if_pos hdecl, if_neg hcond, hp]
    refine ⟨trivial, ?_⟩
    intro ad had hnm
    show applyCustomAllocation g (applyAirdrop g sa db) ad.address = g.airdropUnits
    rw [applyCustomAllocation, applyCustomList_not_mem _ _ _ hnm,
      applyAirdrop_mem g sa db ad.address (List.mem_map_of_mem _ had)]

/-- Concrete genesis for the airdrop witness: declared hash "h", flat amount
10, a custom allocation for address 6 only. -/
def genA : Genesis :=
  { DefaultGenesis with
    magic := 1
    customAllocation := [⟨6, 7⟩]
    airdropHash := "h"
    airdropUnits := 10 }

/-- Witness for C4: genesis genA, a digest function returning "h", a parse
returning the single entry for address 5; both branches applied at it. -/
theorem genesis_load_airdrop_spec_witness :
    (0 : Nat) < genA.airdropHash.length ∧
    (((fun _ : List Nat => "x") [] ≠ genA.airdropHash →
      (genA.Load (fun _ => "x") (fun _ => .ok [⟨5⟩]) (fun _ => 0) []).2 =
        some (.HashMismatch genA.airdropHash ((fun _ : List Nat => "x") [])) ∧
      ∀ a, (genA.Load (fun _ => "x") (fun _ => .ok [⟨5⟩]) (fun _ => 0) []).1 a =
        (fun _ => (0 : Nat)) a) ∧
    (∀ sa, (fun _ : List Nat => "x") [] = genA.airdropHash →
      (fun _ : List Nat => (.ok [⟨5⟩] : Except ChainError (List Airdrop))) [] = .ok sa →
      (genA.Load (fun _ => "x") (fun _ => .ok [⟨5⟩]) (fun _ => 0) []).2 = none ∧
      ∀ ad ∈ sa, ad.address ∉ genA.customAllocation.map (fun c => c.address) →
        (genA.Load (fun _ => "x") (fun _ => .ok [⟨5⟩]) (fun _ => 0) []).1 ad.address =
          genA.airdropUnits)) ∧
    ((0 : Nat) < genA.airdropHash.length ∧
    (∀ sa, (fun _ : List Nat => "h") [] = genA.airdropHash →
      (fun _ : List Nat => (.ok [⟨5⟩] : Except ChainError (List Airdrop))) [] = .ok sa →
      (genA.Load (fun _ => "h") (fun _ => .ok [⟨5⟩]) (fun _ => 0) []).2 = none ∧
      ∀ ad ∈ sa, ad.address ∉ genA.customAllocation.map (fun c => c.address) →
        (genA.Load (fun _ => "h") (fun _ => .ok [⟨5⟩]) (fun _ => 0) []).1 ad.address =
          genA.airdropUnits)) :=
  ⟨by decide,
    genesis_load_airdrop_spec (fun _ => "x") (fun _ => .ok [⟨5⟩]) genA (fun _ => 0) []
      (by decide),
    by decide,
    (genesis_load_airdrop_spec (fun _ => "h") (fun _ => .ok [⟨5⟩]) genA (fun _ => 0) []
      (by decide)).2⟩

/-- Concrete genesis for the override counterexample: address 5 appears both
in the airdrop payload (flat amount 10) and in the custom allocation list
(balance 7). -/
def genB : Genesis :=
  { DefaultGenesis with
    magic := 1
    customAllocation := [⟨5, 7⟩]
    airdropHash := "h"
    airdropUnits := 10 }

/-- Counterexample to C5 as stated: for genB, address 5 is credited 10 by the
airdrop and declared with balance 7 in the custom list; the claim predicts a
final balance of airdrop amount plus custom credit (17), but Load writes the
custom balance outright and the final balance is 7. -/
theorem genesis_custom_overrides_cex :
    (genB.Load (fun _ => "h") (fun _ => .ok [⟨5⟩]) (fun _ => 0) []).1 5 = 7 ∧
    ¬ (genB.Load (fun _ => "h") (fun _ => .ok [⟨5⟩]) (fun _ => 0) []).1 5 =
        genB.airdropUnits + 7 := by
  constructor
  · decide
  · decide

/-- C5 amended: Load applies the custom allocation list strictly after the
airdrop list, but writes each declared (address, balance) pair with the
balance-storing primitive: the final balance of an address in the custom list
is independent of the airdrop state (the custom balance overrides the airdrop
amount rather than being credited on top), and when the custom addresses are
distinct each custom address ends with exactly its declared balance. -/
theorem genesis_custom_after_airdrop (keccakHex : List Nat → String)
    (parseAirdrop : List Nat → Except ChainError (List Airdrop))
    (g : Genesis) (db : Db) (data : List Nat) (sa : List Airdrop)
    (hdecl : 0 < g.airdropHash.length)
    (hh : keccakHex data = g.airdropHash)
    (hp : parseAirdrop data = .ok sa) :
    (g.Load keccakHex parseAirdrop db data).1 =
      applyCustomAllocation g (applyAirdrop g sa db) ∧
    (∀ a, a ∈ g.customAllocation.map (fun c => c.address) →
      (g.Load keccakHex parseAirdrop db data).1 a = applyCustomAllocation g db a) ∧
    ((g.customAllocation.map (fun c => c.address)).Nodup →
      ∀ ca ∈ g.customAllocation,
        (g.Load keccakHex parseAirdrop db data).1 ca.address = ca.balance) := by
  have hcond : ¬ (g.airdropHash ≠ keccakHex data) := fun hne => hne hh.symm
  have hload : (g.Load keccakHex parseAirdrop db data).1 =
      applyCustomAllocation g (applyAirdrop g sa db) := by
    simp [Genesis.Load, hdecl, hcond, hp]
  refine ⟨hload, ?_, ?_⟩
  · intro a hmem
    rw [hload]
    exact applyCustomList_indep _ a hmem _ _
  · intro hnd ca hca
    rw [hload]
    exact applyCustomList_nodup _ _ hnd ca hca

/-- Witness for the amended C5: the genB scenario, with all three conjuncts
instantiated at the concrete digest and parse functions. -/
theorem genesis_custom_after_airdrop_witness :
    ((0 : Nat) < genB.airdropHash.length ∧
      (fun _ : List Nat => "h") [] = genB.airdropHash ∧
      (fun _ : List Nat => (.ok [⟨5⟩] : Except ChainError (List Airdrop))) [] = .ok [⟨5⟩]) ∧
    ((genB.Load (fun _ => "h") (fun _ => .ok [⟨5⟩]) (fun _ => 0) []).1 =
      applyCustomAllocation genB (applyAirdrop genB [⟨5⟩] (fun _ => 0)) ∧
    (∀ a, a ∈ genB.customAllocation.map (fun c => c.address) →
      (genB.Load (fun _ => "h") (fun _ => .ok [⟨5⟩]) (fun _ => 0) []).1 a =
        applyCustomAllocation genB (fun _ => 0) a) ∧
    ((genB.customAllocation.map (fun c => c.address)).Nodup →
      ∀ ca ∈ genB.customAllocation,
        (genB.Load (fun _ => "h") (fun _ => .ok [⟨5⟩]) (fun _ => 0) []).1 ca.address =
          ca.balance)) :=
  ⟨⟨by decide, by decide, rfl⟩,
    genesis_custom_after_airdrop (fun _ => "h") (fun _ => .ok [⟨5⟩]) genB (fun _ => 0) []
      [⟨5⟩] (by decide) (by decide) rfl⟩

/-- C6: the chain-start load contract checks the genesis magic before any
allocation: a zero magic fails with InvalidMagic leaving every balance
unchanged, and a non-zero magic hands off to Genesis.Load. -/
theorem load_contract_magic (keccakHex : List Nat → String)
    (parseAirdrop : List Nat → Except ChainError (List Airdrop))
    (g : Genesis) (db : Db) (data : List Nat) :
    (g.magic = 0 →
      (loadContract keccakHex parseAirdrop g db data).2 = some .InvalidMagic ∧
      ∀ a, (loadContract keccakHex parseAirdrop g db data).1 a = db a) ∧
    (g.magic ≠ 0 →
      loadContract keccakHex parseAirdrop g db data =
        g.Load keccakHex parseAirdrop db data) := by
  constructor
  · intro h0
    simp [loadContract, Genesis.Verify, h0]
  · intro hn
    simp [loadContract, Genesis.Verify, hn]

/-- Witness for C6: DefaultGenesis (whose magic is the Go zero value) takes
the InvalidMagic branch; genB (magic 1) reaches Load. -/
theorem load_contract_magic_witness :
    (DefaultGenesis.magic = 0 ∧
      ((loadContract (fun _ => "h") (fun _ => .ok []) DefaultGenesis (fun _ => 0) []).2 =
        some .InvalidMagic ∧
      ∀ a, (loadContract (fun _ => "h") (fun _ => .ok []) DefaultGenesis (fun _ => 0) []).1 a =
        (fun _ => (0 : Nat)) a)) ∧
    (genB.magic ≠ 0 ∧
      loadContract (fun _ => "h") (fun _ => .ok []) genB (fun _ => 0) [] =
        genB.Load (fun _ => "h") (fun _ => .ok []) (fun _ => 0) []) :=
  ⟨⟨rfl, (load_contract_magic (fun _ => "h") (fun _ => .ok []) DefaultGenesis
      (fun _ => 0) []).1 rfl⟩,
    ⟨by decide, (load_contract_magic (fun _ => "h") (fun _ => .ok []) genB
      (fun _ => 0) []).2 (by decide)⟩⟩

/-- Errors surfaced by the claim client's RPC calls and by transaction
serialization: the Go code wraps them all as error values it returns. -/
inductive MineErr where
  | requestFailed (msg : String)
  deriving DecidableEq, Repr

/-- The external consensus engine as the claim client sees it, plus the
caller's deadline: alive t holds when ctx.Err() is still nil at step t, and
curr, valid and est are the responses of the currBlock, validBlockID and
difficultyEstimate endpoints. Each RPC consumes one time step, so "latest"
estimates are the ones fetched at later steps. -/
structure MineEnv where
  alive : Nat → Bool
  curr : Nat → Except MineErr Nat
  valid : Nat → Nat → Except MineErr Bool
  est : Nat → Except MineErr Nat

/-- The slice of the UnsignedTransaction interface mine uses: SetBlockID,
SetGraffiti and the unsigned byte encoding (chain.UnsignedBytes, which can
fail). The Go setters mutate the object utx points to; here the updated object
state is the returned value, threaded through the loop, and the state handed
back at the end is the state of the caller's object after the call. -/
structure UnsignedTxOps (τ : Type) where
  setBlockID : τ → Nat → τ
  setGraffiti : τ → Nat → τ
  unsignedBytes : τ → Except MineErr (List Nat)

/-- Outcome of the inner graffiti loop of mine, carrying the state of the
caller's transaction object and the time at exit: done returns the mined
transaction, fail aborts mine with the error, brk falls back to the outer
loop (stale block id, or deadline hit at the loop guard). -/
inductive InnerOut (τ : Type) where
  | done (tx : τ) (t : Nat)
  | fail (e : MineErr) (tx : τ) (t : Nat)
  | brk (tx : τ) (t : Nat)
  | fuelOut (tx : τ) (t : Nat)

/-- The inner loop of mine, from the source: while the deadline has not
elapsed, re-check that the chosen block id is still valid (return the error on
a query failure, break to the outer loop when no longer valid), set the next
graffiti value, encode the transaction, fetch a fresh difficulty estimate, and
return the transaction the first time its difficulty meets or exceeds the
estimate; otherwise increment the graffiti and loop. Fuel bounds the number of
iterations the total function can unroll; a run that would loop longer ends in
fuelOut, about which no claim theorem says anything. -/
def mineInner (env : MineEnv) (ops : UnsignedTxOps τ) (pw : List Nat → Nat)
    (cbID : Nat) : τ → Nat → Nat → Nat → InnerOut τ
  | utx, _, t, 0 => .fuelOut utx t
  | utx, g, t, fuel+1 =>
    if env.alive t then
      match env.valid t cbID with
      | .error e => .fail e utx (t+1)
      | .ok v =>
        if v then
          let utx1 := ops.setGraffiti utx g
          match ops.unsignedBytes utx1 with
          | .error e => .fail e utx1 (t+1)
          | .ok b =>
            match env.est (t+1) with
            | .error e => .fail e utx1 (t+2)
            | .ok d =>
              if pw b ≥ d then .done utx1 (t+2)
              else mineInner env ops pw cbID utx1 (g+1) (t+2) fuel
        else .brk utx (t+1)
    else .brk utx t

/-- Result of mine: the mined transaction, a fatal query/encoding error, or
the context's cancellation error (ctx.Err()) when the deadline elapsed. -/
inductive MineOut (τ : Type) where
  | done (tx : τ)
  | fail (e : MineErr)
  | ctxDone
  | fuelOut

/-- The outer loop of mine, from the source: while the deadline has not
elapsed, fetch the current block id (returning any query error), set it on the
transaction, and run the inner graffiti search from zero; when the inner loop
breaks (stale block id) refetch a new block id and start over. The second
component of the result is the state of the caller's transaction object after
the call: the Go code passes a pointer and the setters write through it. -/
def mine (env : MineEnv) (ops : UnsignedTxOps τ) (pw : List Nat → Nat) :
    τ → Nat → Nat → Nat → MineOut τ × τ
  | utx, _, 0, _ => (.fuelOut, utx)
  | utx, t, fo+1, fi =>
    if env.alive t then
      match env.curr t with
      | .error e => (.fail e, utx)
      | .ok cbID =>
        let utx1 := ops.setBlockID utx cbID
        match mineInner env ops pw cbID utx1 0 (t+1) fi with
        | .done tx _ => (.done tx, tx)
        | .fail e u _ => (.fail e, u)
        | .brk u t1 => mine env ops pw u t1 fo fi
        | .fuelOut u _ => (.fuelOut, u)
    else (.ctxDone, utx)

/-- The transaction states the inner loop produces: graffitiIter ops utx g n
is the object state after setting graffiti values g, g+1, ..., g+n in order. -/
def graffitiIter (ops : UnsignedTxOps τ) (utx : τ) (g : Nat) : Nat → τ
  | 0 => ops.setGraffiti utx g
  | n+1 => graffitiIter ops (ops.setGraffiti utx g) (g+1) n

/-- Attempt j of an inner-loop run started at state utx, graffiti g, time t:
the deadline had not elapsed, the block id was still reported valid, the
encoding succeeded, a fresh estimate was fetched, and the difficulty fell
short of it (the attempt failed the bar). -/
def attemptBelow (env : MineEnv) (ops : UnsignedTxOps τ) (pw : List Nat → Nat)
    (cbID : Nat) (utx : τ) (g t j : Nat) : Prop :=
  env.alive (t + 2*j) = true ∧ env.valid (t + 2*j) cbID = .ok true ∧
  ∃ b, ops.unsignedBytes (graffitiIter ops utx g j) = .ok b ∧
    ∃ d, env.est (t + 2*j + 1) = .ok d ∧ pw b < d

/-- Attempt n succeeding: same run shape, but the difficulty met or exceeded
the estimate fetched at that attempt, while the block id was still valid. -/
def attemptHit (env : MineEnv) (ops : UnsignedTxOps τ) (pw : List Nat → Nat)
    (cbID : Nat) (utx : τ) (g t n : Nat) : Prop :=
  env.alive (t + 2*n) = true ∧ env.valid (t + 2*n) cbID = .ok true ∧
  ∃ b, ops.unsignedBytes (graffitiIter ops utx g n) = .ok b ∧
    ∃ d, env.est (t + 2*n + 1) = .ok d ∧ d ≤ pw b

/-- Outcome of the confirmation-polling loop of claimFunc. -/
inductive PollOut where
  | confirmed (t : Nat)
  | timedOut
  | fuelOut
  deriving DecidableEq, Repr

/-- The confirmation-polling loop of claimFunc, from the source: each second,
while the deadline has not elapsed, query checkTx; a query failure is printed
and the loop simply continues (the zero-valued reply is not confirmed), a
confirmed reply ends the loop, and an elapsed deadline ends it without
confirmation. -/
def pollConfirm (alive : Nat → Bool) (checkTx : Nat → Except MineErr Bool) :
    Nat → Nat → PollOut
  | _, 0 => .fuelOut
  | t, f+1 =>
    if alive t then
      match checkTx t with
      | .error _ => pollConfirm alive checkTx (t+1) f
      | .ok c => if c then .confirmed t else pollConfirm alive checkTx (t+1) f
    else .timedOut

theorem graffitiIter_shift (ops : UnsignedTxOps τ) (utx : τ) (g n : Nat) :
    graffitiIter ops (ops.setGraffiti utx g) (g+1) n = graffitiIter ops utx g (n+1) := rfl

theorem attemptBelow_shift (env : MineEnv) (ops : UnsignedTxOps τ) (pw : List Nat → Nat)
    (cbID : Nat) (utx : τ) (g t j : Nat) :
    attemptBelow env ops pw cbID (ops.setGraffiti utx g) (g+1) (t+2) j ↔
      attemptBelow env ops pw cbID utx g t (j+1) := by
  have h1 : t + 2 + 2*j = t + 2*(j+1) := by omega
  simp only [attemptBelow, graffitiIter_shift, h1]

theorem attemptHit_shift (env : MineEnv) (ops : UnsignedTxOps τ) (pw : List Nat → Nat)
    (cbID : Nat) (utx : τ) (g t n : Nat) :
    attemptHit env ops pw cbID (ops.setGraffiti utx g) (g+1) (t+2) n ↔
      attemptHit env ops pw cbID utx g t (n+1) := by
  have h1 : t + 2 + 2*n = t + 2*(n+1) := by omega
  simp only [attemptHit, graffitiIter_shift, h1]

theorem mineInner_step_dead (env : MineEnv) (ops : UnsignedTxOps τ)
    (pw : List Nat → Nat) (cbID : Nat) (utx : τ) (g t fuel : Nat)
    (ha : env.alive t = false) :
    mineInner env ops pw cbID utx g t (fuel+1) = .brk utx t := by
  simp [mineInner, ha]

theorem mineInner_step_validFail (env : MineEnv) (ops : UnsignedTxOps τ)
    (pw : List Nat → Nat) (cbID : Nat) (utx : τ) (g t fuel : Nat) (e : MineErr)
    (ha : env.alive t = true) (hv : env.valid t cbID = .error e) :
    mineInner env ops pw cbID utx g t (fuel+1) = .fail e utx (t+1) := by
  simp [mineInner, ha, hv]

theorem mineInner_step_invalid (env : MineEnv) (ops : UnsignedTxOps τ)
    (pw : List Nat → Nat) (cbID : Nat) (utx : τ) (g t fuel : Nat)
    (ha : env.alive t = true) (hv : env.valid t cbID = .ok false) :
    mineInner env ops pw cbID utx g t (fuel+1) = .brk utx (t+1) := by
  simp [mineInner, ha, hv]

theorem mineInner_step_bytesFail (env : MineEnv) (ops : UnsignedTxOps τ)
    (pw : List Nat → Nat) (cbID : Nat) (utx : τ) (g t fuel : Nat) (e : MineErr)
    (ha : env.alive t = true) (hv : env.valid t cbID = .ok true)
    (hb : ops.unsignedBytes (ops.setGraffiti utx g) = .error e) :
    mineInner env ops pw cbID utx g t (fuel+1) = .fail e (ops.setGraffiti utx g) (t+1) := by
  simp [mineInner, ha, hv, hb]

theorem mineInner_step_estFail (env : MineEnv) (ops : UnsignedTxOps τ)
    (pw : List Nat → Nat) (cbID : Nat) (utx : τ) (g t fuel : Nat)
    (e : MineErr) (b : List Nat)
    (ha : env.alive t = true) (hv : env.valid t cbID = .ok true)
    (hb : ops.unsignedBytes (ops.setGraffiti utx g) = .ok b)
    (he : env.est (t+1) = .error e) :
    mineInner env ops pw cbID utx g t (fuel+1) = .fail e (ops.setGraffiti utx g) (t+2) := by
  simp [mineInner, ha, hv, hb, he]

theorem mineInner_step_hit (env : MineEnv) (ops : UnsignedTxOps τ)
    (pw : List Nat → Nat) (cbID : Nat) (utx : τ) (g t fuel : Nat)
    (b : List Nat) (d : Nat)
    (ha : env.alive t = true) (hv : env.valid t cbID = .ok true)
    (hb : ops.unsignedBytes (ops.setGraffiti utx g) = .ok b)
    (he : env.est (t+1) = .ok d) (hd : d ≤ pw b) :
    mineInner env ops pw cbID utx g t (fuel+1) = .done (ops.setGraffiti utx g) (t+2) := by
  simp [mineInner, ha, hv, hb, he, hd]

theorem mineInner_step_miss (env : MineEnv) (ops : UnsignedTxOps τ)
    (pw : List Nat → Nat) (cbID : Nat) (utx : τ) (g t fuel : Nat)
    (b : List Nat) (d : Nat)
    (ha : env.alive t = true) (hv : env.valid t cbID = .ok true)
    (hb : ops.unsignedBytes (ops.setGraffiti utx g) = .ok b)
    (he : env.est (t+1) = .ok d) (hd : pw b < d) :
    mineInner env ops pw cbID utx g t (fuel+1) =
      mineInner env ops pw cbID (ops.setGraffiti utx g) (g+1) (t+2) fuel := by
  simp [mineInner, ha, hv, hb, he, not_le.mpr hd]

theorem mine_step_dead (env : MineEnv) (ops : UnsignedTxOps τ)
    (pw : List Nat → Nat) (utx : τ) (t fo fi : Nat)
    (ha : env.alive t = false) :
    mine env ops pw utx t (fo+1) fi = (.ctxDone, utx) := by
  simp [mine, ha]

theorem mine_step_currFail (env : MineEnv) (ops : UnsignedTxOps τ)
    (pw : List Nat → Nat) (utx : τ) (t fo fi : Nat) (e : MineErr)
    (ha : env.alive t = true) (hc : env.curr t = .error e) :
    mine env ops pw utx t (fo+1) fi = (.fail e, utx) := by
  simp [mine, ha, hc]

theorem mine_step_inner (env : MineEnv) (ops : UnsignedTxOps τ)
    (pw : List Nat → Nat) (utx : τ) (t fo fi : Nat) (cbID : Nat)
    (ha : env.alive t = true) (hc : env.curr t = .ok cbID) :
    mine env ops pw utx t (fo+1) fi =
      match mineInner env ops pw cbID (ops.setBlockID utx cbID) 0 (t+1) fi with
      | .done tx _ => (.done tx, tx)
      | .fail e u _ => (.fail e, u)
      | .brk u t1 => mine env ops pw u t1 fo fi
      | .fuelOut u _ => (.fuelOut, u) := by
  simp [mine, ha, hc]

/-- Success characterization of the inner loop: a mined transaction is the
state after trying graffiti values g, g+1, ... in order, where every earlier
attempt saw a still-valid block id but fell below the estimate fetched at that
attempt, and the returned attempt met or exceeded its estimate while the block
id was still valid. -/
theorem mineInner_done_spec (env : MineEnv) (ops : UnsignedTxOps τ)
    (pw : List Nat → Nat) (cbID : Nat) :
    ∀ (fuel : Nat) (utx : τ) (g t : Nat) (tx : τ) (t1 : Nat),
      mineInner env ops pw cbID utx g t fuel = .done tx t1 →
      ∃ n, tx = graffitiIter ops utx g n ∧
        (∀ j, j < n → attemptBelow env ops pw cbID utx g t j) ∧
        attemptHit env ops pw cbID utx g t n := by
  intro fuel
  induction fuel with
  | zero =>
    intro utx g t tx t1 h
    simp [mineInner] at h
  | succ fuel ih =>
    intro utx g t tx t1 h
    cases halive : env.alive t with
    | false =>
      rw [mineInner_step_dead env ops pw cbID utx g t fuel halive] at h
      cases h
    | true =>
      cases hval : env.valid t cbID with
      | error e =>
        rw [mineInner_step_validFail env ops pw cbID utx g t fuel e halive hval] at h
        cases h
      | ok v =>
        cases v with
        | false =>
          rw [mineInner_step_invalid env ops pw cbID utx g t fuel halive hval] at h
          cases h
        | true =>
          cases hbytes : ops.unsignedBytes (ops.setGraffiti utx g) with
          | error e =>
            rw [mineInner_step_bytesFail env ops pw cbID utx g t fuel e halive hval hbytes] at h
            cases h
          | ok b =>
            cases hest : env.est (t+1) with
            | error e =>
              rw [mineInner_step_estFail env ops pw cbID utx g t fuel e b
                halive hval hbytes hest] at h
              cases h
            | ok d =>
              by_cases hd : d ≤ pw b
              · rw [mineInner_step_hit env ops pw cbID utx g t fuel b d
                  halive hval hbytes hest hd] at h
                cases h
                refine ⟨0, rfl, ?_, ?_⟩
                · intro j hj
                  exact absurd hj (Nat.not_lt_zero j)
                · refine ⟨by simpa using halive, by simpa using hval, b, ?_, d, ?_, hd⟩
                  · simpa using hbytes
                  · simpa using hest
              · rw [mineInner_step_miss env ops pw cbID utx g t fuel b d
                  halive hval hbytes hest (not_le.mp hd)] at h
                obtain ⟨n, htx, hbelow, hhit⟩ := ih _ _ _ _ _ h
                refine ⟨n+1, htx, ?_, ?_⟩
                · intro j hj
                  cases j with
                  | zero =>
                    refine ⟨by simpa using halive, by simpa using hval, b, ?_, d, ?_, ?_⟩
                    · simpa using hbytes
                    · simpa using hest
                    · exact not_le.mp hd
                  | succ j1 =>
                    exact (attemptBelow_shift env ops pw cbID utx g t j1).mp
                      (hbelow j1 (by omega))
                · exact (attemptHit_shift env ops pw cbID utx g t n).mp hhit

/-- Success characterization of mine: the returned transaction is the state of
the caller's transaction object after the call, and it arose from a round that
fetched a block id while the deadline was open, set it on the transaction, and
ran the graffiti search from zero to the first attempt meeting the estimate
while the block id was still reported valid. -/
theorem mine_done_spec (env : MineEnv) (ops : UnsignedTxOps τ) (pw : List Nat → Nat) :
    ∀ (fo fi : Nat) (utx : τ) (t : Nat) (tx utxF : τ),
      mine env ops pw utx t fo fi = (.done tx, utxF) →
      tx = utxF ∧
      ∃ u utx0 cbID n, env.alive u = true ∧ env.curr u = .ok cbID ∧
        tx = graffitiIter ops (ops.setBlockID utx0 cbID) 0 n ∧
        (∀ j, j < n → attemptBelow env ops pw cbID (ops.setBlockID utx0 cbID) 0 (u+1) j) ∧
        attemptHit env ops pw cbID (ops.setBlockID utx0 cbID) 0 (u+1) n := by
  intro fo
  induction fo with
  | zero =>
    intro fi utx t tx utxF h
    simp [mine] at h
  | succ fo ih =>
    intro fi utx t tx utxF h
    cases halive : env.alive t with
    | false =>
      rw [mine_step_dead env ops pw utx t fo fi halive] at h
      simp at h
    | true =>
      cases hcurr : env.curr t with
      | error e =>
        rw [mine_step_currFail env ops pw utx t fo fi e halive hcurr] at h
        simp at h
      | ok cbID =>
        rw [mine_step_inner env ops pw utx t fo fi cbID halive hcurr] at h
        cases hinner : mineInner env ops pw cbID (ops.setBlockID utx cbID) 0 (t+1) fi with
        | done tx2 t2 =>
          rw [hinner] at h
          obtain ⟨h1, h2⟩ := Prod.mk.injEq .. ▸ h
          obtain ⟨n, htx, hbelow, hhit⟩ :=
            mineInner_done_spec env ops pw cbID fi _ 0 (t+1) tx2 t2 hinner
          cases h1
          exact ⟨h2, t, utx, cbID, n, halive, hcurr, htx, hbelow, hhit⟩
        | fail e u t2 =>
          rw [hinner] at h
          simp at h
        | brk u t2 =>
          rw [hinner] at h
          exact ih fi u t2 tx utxF h
        | fuelOut u t2 =>
          rw [hinner] at h
          simp at h

/-- C7: (1) mine returns a transaction only as the first graffiti value,
tried in increasing order from zero within the round, whose difficulty meets
or exceeds the estimate fetched at that attempt while the chosen block id was
still reported valid; (2) a block id reported invalid abandons the inner loop
and the outer loop refetches a new block id; (3) an elapsed deadline makes
mine return the context's cancellation error, never a transaction. -/
theorem mine_protocol_spec (env : MineEnv) (ops : UnsignedTxOps τ)
    (pw : List Nat → Nat) (utx : τ) (t fo fi : Nat) :
    (∀ tx utxF, mine env ops pw utx t fo fi = (.done tx, utxF) →
      tx = utxF ∧
      ∃ u utx0 cbID n, env.alive u = true ∧ env.curr u = .ok cbID ∧
        tx = graffitiIter ops (ops.setBlockID utx0 cbID) 0 n ∧
        (∀ j, j < n → attemptBelow env ops pw cbID (ops.setBlockID utx0 cbID) 0 (u+1) j) ∧
        attemptHit env ops pw cbID (ops.setBlockID utx0 cbID) 0 (u+1) n) ∧
    (∀ cbID fo1 fi1, fo = fo1 + 1 → fi = fi1 + 1 →
      env.alive t = true → env.curr t = .ok cbID →
      env.alive (t+1) = true → env.valid (t+1) cbID = .ok false →
      mine env ops pw utx t fo fi =
        mine env ops pw (ops.setBlockID utx cbID) (t+2) fo1 fi) ∧
    (∀ fo1, fo = fo1 + 1 → env.alive t = false →
      mine env ops pw utx t fo fi = (.ctxDone, utx)) := by
  refine ⟨?_, ?_, ?_⟩
  · intro tx utxF h
    exact mine_done_spec env ops pw fo fi utx t tx utxF h
  · intro cbID fo1 fi1 hfo hfi ha hc ha1 hv
    subst hfo
    subst hfi
    rw [mine_step_inner env ops pw utx t fo1 (fi1+1) cbID ha hc,
      mineInner_step_invalid env ops pw cbID (ops.setBlockID utx cbID) 0 (t+1) fi1 ha1 hv]
  · intro fo1 hfo ha
    subst hfo
    exact mine_step_dead env ops pw utx t fo1 fi ha

/-- Toy transaction for concrete mining runs: block id and graffiti. -/
abbrev TxW : Type := Nat × Nat

/-- Interface instance for TxW: the setters write the respective component,
the unsigned encoding lists both fields. -/
def opsW : UnsignedTxOps TxW :=
  ⟨fun p c => (c, p.2), fun p g => (p.1, g), fun p => .ok [p.1, p.2]⟩

/-- A constant difficulty function for concrete runs. -/
def powW : List Nat → Nat := fun _ => 5

/-- Healthy engine: always alive, block id 9, always valid, estimate 3. -/
def envW : MineEnv := ⟨fun _ => true, fun _ => .ok 9, fun _ _ => .ok true, fun _ => .ok 3⟩

/-- Engine whose block id is reported stale at step 1. -/
def envStale : MineEnv :=
  ⟨fun _ => true, fun _ => .ok 9, fun u _ => if u = 1 then .ok false else .ok true,
    fun _ => .ok 3⟩

/-- Engine seen after the caller's deadline has elapsed. -/
def envDead : MineEnv := ⟨fun _ => false, fun _ => .ok 9, fun _ _ => .ok true, fun _ => .ok 3⟩

/-- Witness for C7: a successful concrete run (difficulty 5 against estimate 3
at the first graffiti), a stale-block refetch step, and a dead deadline. -/
theorem mine_protocol_spec_witness :
    (mine envW opsW powW ((0, 0) : TxW) 0 1 1 = (.done (9, 0), (9, 0)) ∧
      (((9, 0) : TxW) = (9, 0) ∧
      ∃ u utx0 cbID n, envW.alive u = true ∧ envW.curr u = .ok cbID ∧
        ((9, 0) : TxW) = graffitiIter opsW (opsW.setBlockID utx0 cbID) 0 n ∧
        (∀ j, j < n → attemptBelow envW opsW powW cbID (opsW.setBlockID utx0 cbID) 0 (u+1) j) ∧
        attemptHit envW opsW powW cbID (opsW.setBlockID utx0 cbID) 0 (u+1) n)) ∧
    (envStale.alive 0 = true ∧ envStale.valid 1 9 = .ok false ∧
      mine envStale opsW powW ((0, 0) : TxW) 0 1 1 =
        mine envStale opsW powW (opsW.setBlockID (0, 0) 9) 2 0 1) ∧
    (envDead.alive 0 = false ∧
      mine envDead opsW powW ((0, 0) : TxW) 0 1 1 = (.ctxDone, (0, 0))) :=
  ⟨⟨rfl, (mine_protocol_spec envW opsW powW (0, 0) 0 1 1).1 (9, 0) (9, 0) rfl⟩,
    ⟨rfl, rfl,
      (mine_protocol_spec envStale opsW powW (0, 0) 0 1 1).2.1 9 0 0 rfl rfl rfl rfl rfl rfl⟩,
    ⟨rfl, (mine_protocol_spec envDead opsW powW (0, 0) 0 1 1).2.2 0 rfl rfl⟩⟩

/-- C8 amended: failures of the currBlock, validBlockID and difficultyEstimate
queries during mine are fatal to the mine call: the error is returned to the
caller at once, with no retry; only the checkTx confirmation-polling loop
treats a query failure as non-fatal, continuing after the fixed one-second
inter-attempt delay, so a later confirmed reply still confirms. -/
theorem mine_query_failures_fatal (env : MineEnv) (ops : UnsignedTxOps τ)
    (pw : List Nat → Nat) (utx : τ) (t fo fi : Nat) :
    (∀ e fo1, fo = fo1 + 1 → env.alive t = true → env.curr t = .error e →
      mine env ops pw utx t fo fi = (.fail e, utx)) ∧
    (∀ e cbID fo1 fi1, fo = fo1 + 1 → fi = fi1 + 1 →
      env.alive t = true → env.curr t = .ok cbID →
      env.alive (t+1) = true → env.valid (t+1) cbID = .error e →
      mine env ops pw utx t fo fi = (.fail e, ops.setBlockID utx cbID)) ∧
    (∀ e cbID b fo1 fi1, fo = fo1 + 1 → fi = fi1 + 1 →
      env.alive t = true → env.curr t = .ok cbID →
      env.alive (t+1) = true → env.valid (t+1) cbID = .ok true →
      ops.unsignedBytes (ops.setGraffiti (ops.setBlockID utx cbID) 0) = .ok b →
      env.est (t+2) = .error e →
      mine env ops pw utx t fo fi =
        (.fail e, ops.setGraffiti (ops.setBlockID utx cbID) 0)) ∧
    (∀ (alive : Nat → Bool) (checkTx : Nat → Except MineErr Bool) (u f : Nat) (e : MineErr),
      alive u = true → checkTx u = .error e →
      pollConfirm alive checkTx u (f+1) = pollConfirm alive checkTx (u+1) f) ∧
    (∀ (alive : Nat → Bool) (checkTx : Nat → Except MineErr Bool) (u f : Nat) (e : MineErr),
      alive u = true → checkTx u = .error e →
      alive (u+1) = true → checkTx (u+1) = .ok true →
      pollConfirm alive checkTx u (f+2) = .confirmed (u+1)) := by
  refine ⟨?_, ?_, ?_, ?_, ?_⟩
  · intro e fo1 hfo ha hc
    subst hfo
    exact mine_step_currFail env ops pw utx t fo1 fi e ha hc
  · intro e cbID fo1 fi1 hfo hfi ha hc ha1 hv
    subst hfo
    subst hfi
    rw [mine_step_inner env ops pw utx t fo1 (fi1+1) cbID ha hc,
      mineInner_step_validFail env ops pw cbID (ops.setBlockID utx cbID) 0 (t+1) fi1 e ha1 hv]
  · intro e cbID b fo1 fi1 hfo hfi ha hc ha1 hv hb he
    subst hfo
    subst hfi
    rw [mine_step_inner env ops pw utx t fo1 (fi1+1) cbID ha hc,
      mineInner_step_estFail env ops pw cbID (ops.setBlockID utx cbID) 0 (t+1) fi1 e b
        ha1 hv hb he]
  · intro alive checkTx u f e ha hc
    simp [pollConfirm, ha, hc]
  · intro alive checkTx u f e ha hc ha1 hc1
    show pollConfirm alive checkTx u (f+2) = .confirmed (u+1)
    rw [show f + 2 = (f + 1) + 1 from rfl]
    simp [pollConfirm, ha, hc, ha1, hc1]

/-- Engine whose currBlock query fails at step 0 only, then recovers. -/
def envFlaky : MineEnv :=
  ⟨fun _ => true, fun u => if u = 0 then .error (.requestFailed "rpc") else .ok 9,
    fun _ _ => .ok true, fun _ => .ok 3⟩

/-- Counterexample to C8 as stated: mine given ample fuel against an engine
whose currBlock query fails exactly once aborts immediately with the error —
the polling failure is fatal to the operation and is not retried — even though
the identical search started one step later succeeds. -/
theorem mine_query_failure_cex :
    mine envFlaky opsW powW ((0, 0) : TxW) 0 5 5 = (.fail (.requestFailed "rpc"), (0, 0)) ∧
    mine envFlaky opsW powW ((0, 0) : TxW) 1 5 5 = (.done (9, 0), (9, 0)) := ⟨rfl, rfl⟩

/-- Engine whose validBlockID query fails. -/
def envValErr : MineEnv :=
  ⟨fun _ => true, fun _ => .ok 9, fun _ _ => .error (.requestFailed "valid"), fun _ => .ok 3⟩

/-- Engine whose difficultyEstimate query fails. -/
def envEstErr : MineEnv :=
  ⟨fun _ => true, fun _ => .ok 9, fun _ _ => .ok true, fun _ => .error (.requestFailed "est")⟩

/-- checkTx responses failing at step 0, confirming at step 1. -/
def checkFlaky : Nat → Except MineErr Bool :=
  fun u => if u = 0 then .error (.requestFailed "checkTx") else .ok true

/-- Witness for the amended C8: each fatal query-failure branch of mine at a
concrete engine, and the polling loop surviving a checkTx failure. -/
theorem mine_query_failures_fatal_witness :
    (envFlaky.curr 0 = .error (.requestFailed "rpc") ∧
      mine envFlaky opsW powW ((0, 0) : TxW) 0 5 5 = (.fail (.requestFailed "rpc"), (0, 0))) ∧
    (envValErr.valid 1 9 = .error (.requestFailed "valid") ∧
      mine envValErr opsW powW ((0, 0) : TxW) 0 1 1 =
        (.fail (.requestFailed "valid"), opsW.setBlockID (0, 0) 9)) ∧
    (envEstErr.est 2 = .error (.requestFailed "est") ∧
      mine envEstErr opsW powW ((0, 0) : TxW) 0 1 1 =
        (.fail (.requestFailed "est"), opsW.setGraffiti (opsW.setBlockID (0, 0) 9) 0)) ∧
    (checkFlaky 0 = .error (.requestFailed "checkTx") ∧
      pollConfirm (fun _ => true) checkFlaky 0 3 = pollConfirm (fun _ => true) checkFlaky 1 2) ∧
    (checkFlaky 1 = .ok true ∧
      pollConfirm (fun _ => true) checkFlaky 0 3 = .confirmed 1) :=
  ⟨⟨rfl, (mine_query_failures_fatal envFlaky opsW powW (0, 0) 0 5 5).1
      (.requestFailed "rpc") 4 rfl rfl rfl⟩,
    ⟨rfl, (mine_query_failures_fatal envValErr opsW powW (0, 0) 0 1 1).2.1
      (.requestFailed "valid") 9 0 0 rfl rfl rfl rfl rfl rfl⟩,
    ⟨rfl, (mine_query_failures_fatal envEstErr opsW powW (0, 0) 0 1 1).2.2.1
      (.requestFailed "est") 9 [9, 0] 0 0 rfl rfl rfl rfl rfl rfl rfl rfl⟩,
    ⟨rfl, (mine_query_failures_fatal envW opsW powW (0, 0) 0 1 1).2.2.2.1
      (fun _ => true) checkFlaky 0 2 (.requestFailed "checkTx") rfl rfl⟩,
    ⟨rfl, (mine_query_failures_fatal envW opsW powW (0, 0) 0 1 1).2.2.2.2
      (fun _ => true) checkFlaky 0 1 (.requestFailed "checkTx") rfl rfl rfl rfl⟩⟩

/-- Modelled from the spec: the BaseTx common fields of section 3 (the BaseTx
struct itself is not under src/): sender, target namespace, the block id the
transaction is mined against, the graffiti nonce, and the fee price bound by
the signing payload. -/
structure BaseTxData where
  sender : Address
  pfx : List Nat
  blockID : Nat
  graffiti : Nat
  price : Nat
  deriving DecidableEq, Repr

/-- A TransferTx object: the Go struct embeds a *BaseTx pointer next to the
To and Units fields; baseRef is that pointer. -/
structure TransferTxObj where
  baseRef : Nat
  toAddr : Address
  units : Nat
  deriving DecidableEq, Repr

/-- Object store for transaction and base-transaction objects with bump
allocation: live references are those below the respective next counter. -/
structure TxHeap where
  txObjs : Nat → TransferTxObj
  baseObjs : Nat → BaseTxData
  nextTx : Nat
  nextBase : Nat

/-- Modelled from the spec: BaseTx.Copy (not under src/); section 4.5 requires
every variant to be deep-copyable, so the base object is copied into a fresh
allocation with equal field values. -/
def copyBaseObj (h : TxHeap) (r : Nat) : TxHeap × Nat :=
  ({ h with
      baseObjs := fun i => if i = h.nextBase then h.baseObjs r else h.baseObjs i
      nextBase := h.nextBase + 1 },
    h.nextBase)

/-- TransferTx.Copy from the source: copies the To bytes into fresh storage
(To is a value field, so the copy cannot alias it), deep-copies the BaseTx,
and returns a freshly allocated TransferTx with the same Units. -/
def TransferTxObj.copy (h : TxHeap) (r : Nat) : TxHeap × Nat :=
  let t := h.txObjs r
  let hb := copyBaseObj h t.baseRef
  ({ hb.1 with
      txObjs := fun i => if i = hb.1.nextTx then ⟨hb.2, t.toAddr, t.units⟩ else hb.1.txObjs i
      nextTx := hb.1.nextTx + 1 },
    hb.1.nextTx)

/-- Units write through a TransferTx reference. -/
def setUnitsObj (h : TxHeap) (r : Nat) (u : Nat) : TxHeap :=
  { h with txObjs := fun i => if i = r then { h.txObjs i with units := u } else h.txObjs i }

/-- To write through a TransferTx reference. -/
def setToObj (h : TxHeap) (r : Nat) (a : Address) : TxHeap :=
  { h with txObjs := fun i => if i = r then { h.txObjs i with toAddr := a } else h.txObjs i }

/-- SetGraffiti through a TransferTx reference: a write to the pointed-to
BaseTx, as the Go pointer-receiver setter performs. -/
def setGraffitiObj (h : TxHeap) (r : Nat) (g : Nat) : TxHeap :=
  { h with baseObjs := fun i =>
      if i = (h.txObjs r).baseRef then { h.baseObjs i with graffiti := g } else h.baseObjs i }

/-- SetBlockID through a TransferTx reference, likewise a BaseTx write. -/
def setBlockIDObj (h : TxHeap) (r : Nat) (c : Nat) : TxHeap :=
  { h with baseObjs := fun i =>
      if i = (h.txObjs r).baseRef then { h.baseObjs i with blockID := c } else h.baseObjs i }

/-- The UnsignedTransaction interface over heap objects: a transaction value
is the heap paired with the object's reference; the setters write through the
reference, exactly as the Go pointer receivers mutate the pointed-to object. -/
def opsH : UnsignedTxOps (TxHeap × Nat) :=
  ⟨fun p c => (setBlockIDObj p.1 p.2 c, p.2),
    fun p g => (setGraffitiObj p.1 p.2 g, p.2),
    fun p =>
      .ok [(p.1.baseObjs (p.1.txObjs p.2).baseRef).blockID,
        (p.1.baseObjs (p.1.txObjs p.2).baseRef).graffiti,
        (p.1.txObjs p.2).toAddr, (p.1.txObjs p.2).units]⟩

/-- The transaction-object state carried by an inner-loop outcome. -/
def innerOutTx : InnerOut τ → τ
  | .done tx _ => tx
  | .fail _ tx _ => tx
  | .brk tx _ => tx
  | .fuelOut tx _ => tx

theorem mineInner_pres (env : MineEnv) (ops : UnsignedTxOps τ) (pw : List Nat → Nat)
    (cbID : Nat) (P : τ → Prop)
    (hset : ∀ x g, P x → P (ops.setGraffiti x g)) :
    ∀ (fuel : Nat) (utx : τ) (g t : Nat), P utx →
      P (innerOutTx (mineInner env ops pw cbID utx g t fuel)) := by
  intro fuel
  induction fuel with
  | zero =>
    intro utx g t hP
    simpa [mineInner, innerOutTx] using hP
  | succ fuel ih =>
    intro utx g t hP
    cases halive : env.alive t with
    | false =>
      rw [mineInner_step_dead env ops pw cbID utx g t fuel halive]
      exact hP
    | true =>
      cases hval : env.valid t cbID with
      | error e =>
        rw [mineInner_step_validFail env ops pw cbID utx g t fuel e halive hval]
        exact hP
      | ok v =>
        cases v with
        | false =>
          rw [mineInner_step_invalid env ops pw cbID utx g t fuel halive hval]
          exact hP
        | true =>
          cases hbytes : ops.unsignedBytes (ops.setGraffiti utx g) with
          | error e =>
            rw [mineInner_step_bytesFail env ops pw cbID utx g t fuel e halive hval hbytes]
            exact hset utx g hP
          | ok b =>
            cases hest : env.est (t+1) with
            | error e =>
              rw [mineInner_step_estFail env ops pw cbID utx g t fuel e b
                halive hval hbytes hest]
              exact hset utx g hP
            | ok d =>
              by_cases hd : d ≤ pw b
              · rw [mineInner_step_hit env ops pw cbID utx g t fuel b d
                  halive hval hbytes hest hd]
                exact hset utx g hP
              · rw [mineInner_step_miss env ops pw cbID utx g t fuel b d
                  halive hval hbytes hest (not_le.mp hd)]
                exact ih _ _ _ (hset utx g hP)

theorem mine_pres (env : MineEnv) (ops : UnsignedTxOps τ) (pw : List Nat → Nat)
    (P : τ → Prop)
    (hsetB : ∀ x c, P x → P (ops.setBlockID x c))
    (hsetG : ∀ x g, P x → P (ops.setGraffiti x g)) :
    ∀ (fo fi : Nat) (utx : τ) (t : Nat), P utx →
      P (mine env ops pw utx t fo fi).2 := by
  intro fo
  induction fo with
  | zero =>
    intro fi utx t hP
    simpa [mine] using hP
  | succ fo ih =>
    intro fi utx t hP
    cases halive : env.alive t with
    | false =>
      rw [mine_step_dead env ops pw utx t fo fi halive]
      exact hP
    | true =>
      cases hcurr : env.curr t with
      | error e =>
        rw [mine_step_currFail env ops pw utx t fo fi e halive hcurr]
        exact hP
      | ok cbID =>
        rw [mine_step_inner env ops pw utx t fo fi cbID halive hcurr]
        have hinnerP := mineInner_pres env ops pw cbID P hsetG fi
          (ops.setBlockID utx cbID) 0 (t+1) (hsetB utx cbID hP)
        cases hinner : mineInner env ops pw cbID (ops.setBlockID utx cbID) 0 (t+1) fi with
        | done tx t2 =>
          rw [hinner] at hinnerP
          exact hinnerP
        | fail e u t2 =>
          rw [hinner] at hinnerP
          exact hinnerP
        | brk u t2 =>
          rw [hinner] at hinnerP
          exact ih fi u t2 hinnerP
        | fuelOut u t2 =>
          rw [hinner] at hinnerP
          exact hinnerP

/-- A one-object heap: a TransferTx at reference 0 (To 2, Units 5) pointing at
base object 0 with zero block id and graffiti. -/
def h0 : TxHeap :=
  ⟨fun _ => ⟨0, 2, 5⟩, fun _ => ⟨1, [], 0, 0, 0⟩, 1, 1⟩

/-- Counterexample to C9 as stated: a successful concrete mine run writes the
fetched block id through the caller's object reference: the pending
transaction object shared with the caller (reference 0) carries block id 9
after the call where it carried 0 before, and mine returns that same object
(same reference) rather than a copy — the mining loop mutates the original
pending transaction. -/
theorem mine_mutates_pending_cex :
    ((mine envW opsH (fun _ => 5) (h0, 0) 0 1 1).2.1.baseObjs
        (((mine envW opsH (fun _ => 5) (h0, 0) 0 1 1).2.1.txObjs 0).baseRef)).blockID = 9 ∧
    (h0.baseObjs ((h0.txObjs 0).baseRef)).blockID = 0 ∧
    (9 : Nat) ≠ 0 ∧
    (mine envW opsH (fun _ => 5) (h0, 0) 0 1 1).1 =
      .done (mine envW opsH (fun _ => 5) (h0, 0) 0 1 1).2 ∧
    ((mine envW opsH (fun _ => 5) (h0, 0) 0 1 1).2).2 = 0 :=
  ⟨rfl, rfl, by decide, rfl, rfl⟩

/-- C9 amended: TransferTx.Copy is a deep copy — the copy is a fresh object
with a freshly allocated BaseTx, fields equal to the original's, the copy
leaves the original untouched, and mutating the copy (Units, To, graffiti or
block id) never changes the original. The mining loop, however, does not use
Copy: its re-assignment of block id and graffiti writes through the pending
transaction object itself, and mine hands back exactly that object — the
returned transaction is the caller's (now mutated) object, same reference. -/
theorem transfer_copy_deep_mine_in_place (h : TxHeap) (r : Nat)
    (hr : r < h.nextTx) (hbr : (h.txObjs r).baseRef < h.nextBase) :
    ((TransferTxObj.copy h r).2 ≠ r ∧
      ((TransferTxObj.copy h r).1.txObjs (TransferTxObj.copy h r).2).baseRef ≠
        (h.txObjs r).baseRef ∧
      ((TransferTxObj.copy h r).1.txObjs (TransferTxObj.copy h r).2).toAddr =
        (h.txObjs r).toAddr ∧
      ((TransferTxObj.copy h r).1.txObjs (TransferTxObj.copy h r).2).units =
        (h.txObjs r).units ∧
      (TransferTxObj.copy h r).1.baseObjs
          (((TransferTxObj.copy h r).1.txObjs (TransferTxObj.copy h r).2).baseRef) =
        h.baseObjs ((h.txObjs r).baseRef) ∧
      (TransferTxObj.copy h r).1.txObjs r = h.txObjs r ∧
      (TransferTxObj.copy h r).1.baseObjs ((h.txObjs r).baseRef) =
        h.baseObjs ((h.txObjs r).baseRef) ∧
      ∀ u a g cb,
        (setBlockIDObj (setGraffitiObj (setToObj (setUnitsObj (TransferTxObj.copy h r).1
              (TransferTxObj.copy h r).2 u) (TransferTxObj.copy h r).2 a)
              (TransferTxObj.copy h r).2 g) (TransferTxObj.copy h r).2 cb).txObjs r =
          h.txObjs r ∧
        (setBlockIDObj (setGraffitiObj (setToObj (setUnitsObj (TransferTxObj.copy h r).1
              (TransferTxObj.copy h r).2 u) (TransferTxObj.copy h r).2 a)
              (TransferTxObj.copy h r).2 g) (TransferTxObj.copy h r).2 cb).baseObjs
            ((h.txObjs r).baseRef) =
          h.baseObjs ((h.txObjs r).baseRef)) ∧
    ((∀ (env : MineEnv) (pw : List Nat → Nat) (fo fi u : Nat) (p q : TxHeap × Nat),
        mine env opsH pw (h, r) u fo fi = (.done p, q) → p = q) ∧
      (∀ (env : MineEnv) (pw : List Nat → Nat) (fo fi u : Nat),
        ((mine env opsH pw (h, r) u fo fi).2).2 = r)) := by
  have hrne : r ≠ h.nextTx := Nat.ne_of_lt hr
  have hbne : (h.txObjs r).baseRef ≠ h.nextBase := Nat.ne_of_lt hbr
  refine ⟨⟨?_, ?_, ?_, ?_, ?_, ?_, ?_, ?_⟩, ?_, ?_⟩
  · exact fun hcontra => hrne hcontra.symm
  · simp [TransferTxObj.copy, copyBaseObj]
    exact fun hcontra => hbne hcontra.symm
  · simp [TransferTxObj.copy, copyBaseObj]
  · simp [TransferTxObj.copy, copyBaseObj]
  · simp [TransferTxObj.copy, copyBaseObj]
  · simp [TransferTxObj.copy, copyBaseObj, hrne]
  · simp [TransferTxObj.copy, copyBaseObj, hbne]
  · intro u a g cb
    constructor
    · simp [TransferTxObj.copy, copyBaseObj, setUnitsObj, setToObj, setGraffitiObj,
        setBlockIDObj, hrne]
    · simp [TransferTxObj.copy, copyBaseObj, setUnitsObj, setToObj, setGraffitiObj,
        setBlockIDObj, hrne, hbne]
  · intro env pw fo fi u p q hdone
    exact (mine_done_spec env opsH pw fo fi (h, r) u p q hdone).1
  · intro env pw fo fi u
    exact mine_pres env opsH pw (fun p => p.2 = r)
      (fun x c hx => hx) (fun x g hx => hx) fo fi (h, r) u rfl

/-- Witness for the amended C9: the one-object heap h0, with the freshness and
field-equality conjuncts read off the application. -/
theorem transfer_copy_deep_mine_in_place_witness :
    (0 : Nat) < h0.nextTx ∧ (h0.txObjs 0).baseRef < h0.nextBase ∧
    (TransferTxObj.copy h0 0).2 ≠ 0 ∧
    ((TransferTxObj.copy h0 0).1.txObjs (TransferTxObj.copy h0 0).2).units =
      (h0.txObjs 0).units ∧
    ∀ (env : MineEnv) (pw : List Nat → Nat) (fo fi u : Nat),
      ((mine env opsH pw (h0, 0) u fo fi).2).2 = 0 :=
  ⟨by decide, by decide,
    (transfer_copy_deep_mine_in_place h0 0 (by decide) (by decide)).1.1,
    (transfer_copy_deep_mine_in_place h0 0 (by decide) (by decide)).1.2.2.2.1,
    (transfer_copy_deep_mine_in_place h0 0 (by decide) (by decide)).2.2⟩

/-- ClaimTx as claimFunc constructs it: the base transaction carries the
sender's public key bytes and the validated namespace. -/
structure ClaimTx where
  sender : Address
  pfx : List Char
  deriving DecidableEq, Repr

/-- getClaimOp from the source: requires exactly one argument, strips exactly
one trailing '/' byte when present, validates the result through
chain.ParseKey (not under src/, left abstract here), and exits the process
with code 128 on wrong arity or on a parse failure — before any transaction
is built. -/
def getClaimOp (parseKey : List Char → Except ChainError Unit)
    (args : List (List Char)) : Except Nat (List Char) :=
  match args with
  | [arg] =>
    let pfx := if arg.getLast? = some '/' then arg.dropLast else arg
    match parseKey pfx with
    | .error _ => .error 128
    | .ok _ => .ok pfx
  | _ => .error 128

/-- The prefix-handling head of claimFunc: the ClaimTx handed to mining and
submission is built only after getClaimOp returns; a getClaimOp failure exits
the process (modelled as the error propagating) before any ClaimTx exists, so
nothing is mined, submitted, or seen by the registry. -/
def claimFuncTx (parseKey : List Char → Except ChainError Unit)
    (sender : Address) (args : List (List Char)) : Except Nat ClaimTx :=
  match getClaimOp parseKey args with
  | .error code => .error code
  | .ok pfx => .ok ⟨sender, pfx⟩

/-- C10: an argument whose normalized form fails ParseKey is rejected with
exit code 128 before any ClaimTx is constructed, for every possible parser;
and the normalization strips exactly one trailing '/' byte, so an argument
ending in a single '/' produces the same claim as the argument without it. -/
theorem claim_validation_spec (parseKey : List Char → Except ChainError Unit)
    (sender : Address) (arg : List Char) :
    (∀ e, parseKey (if arg.getLast? = some '/' then arg.dropLast else arg) = .error e →
      getClaimOp parseKey [arg] = .error 128 ∧
      claimFuncTx parseKey sender [arg] = .error 128) ∧
    (arg.getLast? ≠ some '/' →
      getClaimOp parseKey [arg ++ ['/']] = getClaimOp parseKey [arg] ∧
      claimFuncTx parseKey sender [arg ++ ['/']] = claimFuncTx parseKey sender [arg]) := by
  constructor
  · intro e he
    refine ⟨?_, ?_⟩
    · simp [getClaimOp, he]
    · simp [claimFuncTx, getClaimOp, he]
  · intro hslash
    have hlast : (arg ++ ['/']).getLast? = some '/' := by
      simp
    have hdrop : (arg ++ ['/']).dropLast = arg := by
      simp
    have hsame : getClaimOp parseKey [arg ++ ['/']] = getClaimOp parseKey [arg] := by
      simp [getClaimOp, hlast, hdrop, hslash]
    exact ⟨hsame, by simp [claimFuncTx, hsame]⟩

/-- Simple key validator for the witness: rejects the empty prefix, as the
spec's example of a prefix failing ParseKey. -/
def parseKeyW : List Char → Except ChainError Unit :=
  fun p => if p = [] then .error .ParseFailure else .ok ()

/-- Witness for C10: the argument "/" normalizes to the empty prefix and is
rejected with exit 128 before a ClaimTx exists; the argument "a/" yields the
same claim as "a". -/
theorem claim_validation_spec_witness :
    (parseKeyW (if (['/'] : List Char).getLast? = some '/' then
        (['/'] : List Char).dropLast else ['/']) = .error .ParseFailure ∧
      getClaimOp parseKeyW [['/']] = .error 128 ∧
      claimFuncTx parseKeyW 1 [['/']] = .error 128) ∧
    ((['a'] : List Char).getLast? ≠ some '/' ∧
      getClaimOp parseKeyW [['a'] ++ ['/']] = getClaimOp parseKeyW [['a']] ∧
      claimFuncTx parseKeyW 1 [['a'] ++ ['/']] = claimFuncTx parseKeyW 1 [['a']]) :=
  ⟨⟨rfl, (claim_validation_spec parseKeyW 1 ['/']).1 .ParseFailure rfl⟩,
    ⟨by decide, (claim_validation_spec parseKeyW 1 ['a']).2 (by decide)⟩⟩

end SpacesVM
